import Mathlib

/-!
VoiceFlow — verification of the specification against the code

Shallow embedding of the VoiceFlow dictation tool.  The frontend pieces
(`StatsHeader` in the React component, `constants.ts`) are translated
directly from the TypeScript source; the backend pipeline components
(model registry, session controller, voice-activity segmenter,
transcription engine, result reordering) are modelled from the
specification because their implementation files are not part of the
source tree under verification.
-/

namespace VoiceFlow

/-! ## Frontend data model (from `src/lib/types.ts` usage in StatsHeader) -/

/-- A microphone descriptor as returned by device enumeration: `{id, name}`. -/
structure MicrophoneInfo where
  id : Int
  name : String
deriving DecidableEq, Repr

/-- The settings object consumed by `StatsHeader` (`api.getSettings()`):
model id, language, microphone id (-1 = system default). -/
structure AppSettings where
  model : String
  language : String
  microphone : Int
deriving DecidableEq, Repr

/-- The options object consumed by `StatsHeader` (`api.getOptions()`). -/
structure AppOptions where
  microphones : List MicrophoneInfo
deriving DecidableEq, Repr

/-- Embeds `options.microphones.find(m => m.id === settings.microphone)`
from `StatsHeader` (line 110): the first enumerated microphone whose id
equals the configured one, if any. -/
def findCurrentMic (options : AppOptions) (micId : Int) : Option MicrophoneInfo :=
  options.microphones.find? (fun m => decide (m.id = micId))

/-- Embeds the `micName` computation of `StatsHeader` (line 111):
`settings.microphone === -1 ? "System Default" : (currentMic?.name || "Unknown Mic")`.
JavaScript `||` treats the empty string as falsy, so a found microphone
with an empty name also falls back to `"Unknown Mic"`. -/
def micDisplayName (settings : AppSettings) (options : AppOptions) : String :=
  if settings.microphone = -1 then "System Default"
  else
    match findCurrentMic options settings.microphone with
    | none => "Unknown Mic"
    | some m => if m.name = "" then "Unknown Mic" else m.name

/-! ## Model catalogue (from `src/lib/constants.ts`) -/

/-- One entry of `MODEL_OPTIONS` in `src/lib/constants.ts`. -/
structure ModelOption where
  id : String
  label : String
  desc : String
  detail : String
  tradeoff : String
  category : String
  speed : Nat
  accuracy : Nat
  size : String
  bestFor : String
  description : String
deriving DecidableEq, Repr

/-- The constant `MODEL_OPTIONS` from `src/lib/constants.ts` (lines 14-132): all models
supported by faster-whisper, organized by category. -/
def MODEL_OPTIONS : List ModelOption := [
  { id := "tiny", label := "Tiny", desc := "Fastest", detail := "39M params",
    tradeoff := "Basic accuracy, good for testing", category := "multilingual",
    speed := 5, accuracy := 1, size := "~75 MB",
    bestFor := "Quick tests, low-resource devices, real-time previews",
    description := "The smallest and fastest model. Great for testing your setup or when speed is critical. Supports 99+ languages but with limited accuracy." },
  { id := "base", label := "Base", desc := "Fast", detail := "74M params",
    tradeoff := "Good for simple/clear audio", category := "multilingual",
    speed := 4, accuracy := 2, size := "~145 MB",
    bestFor := "Clear audio, simple vocabulary, quick transcriptions",
    description := "A step up from Tiny with noticeably better accuracy while remaining fast. Works well with clear audio and common vocabulary." },
  { id := "small", label := "Small", desc := "Balanced", detail := "244M params",
    tradeoff := "Good accuracy, reasonable speed", category := "multilingual",
    speed := 3, accuracy := 3, size := "~466 MB",
    bestFor := "General use, meetings, interviews, podcasts",
    description := "The sweet spot for most users. Offers good accuracy across various accents and audio conditions while maintaining reasonable speed." },
  { id := "medium", label := "Medium", desc := "Accurate", detail := "769M params",
    tradeoff := "High quality, slower", category := "multilingual",
    speed := 2, accuracy := 4, size := "~1.5 GB",
    bestFor := "Professional transcription, accented speech, noisy audio",
    description := "High-quality transcription suitable for professional use. Handles accents, technical terminology, and challenging audio well." },
  { id := "large-v1", label := "Large v1", desc := "Very Accurate", detail := "1.5B params",
    tradeoff := "Original large model", category := "multilingual",
    speed := 1, accuracy := 4, size := "~3.1 GB",
    bestFor := "Maximum accuracy needs, archival transcription",
    description := "The original large model. Very accurate but slower. Consider v2 or v3 for better performance." },
  { id := "large-v2", label := "Large v2", desc := "Very Accurate", detail := "1.5B params",
    tradeoff := "Improved over v1", category := "multilingual",
    speed := 1, accuracy := 5, size := "~3.1 GB",
    bestFor := "Professional/medical/legal transcription, rare languages",
    description := "Improved version with better accuracy across all languages. Recommended over v1 for most use cases requiring maximum accuracy." },
  { id := "large-v3", label := "Large v3", desc := "Most Accurate", detail := "1.5B params",
    tradeoff := "Best quality, slowest", category := "multilingual",
    speed := 1, accuracy := 5, size := "~3.1 GB",
    bestFor := "Critical accuracy, difficult audio, rare languages",
    description := "The most accurate model available. Best for critical transcription where accuracy is paramount. Supports 99+ languages with state-of-the-art quality." },
  { id := "turbo", label := "Turbo", desc := "Fast + Accurate", detail := "809M params",
    tradeoff := "Best speed/quality balance", category := "multilingual",
    speed := 4, accuracy := 4, size := "~1.6 GB",
    bestFor := "Daily use, real-time transcription, productivity",
    description := "The recommended model for most users. Combines near large-model accuracy with much faster speed. Excellent for daily dictation and productivity." },
  { id := "tiny.en", label := "Tiny (EN)", desc := "Fastest English", detail := "39M params",
    tradeoff := "English only, basic accuracy", category := "english",
    speed := 5, accuracy := 2, size := "~75 MB",
    bestFor := "English-only quick tests, minimal resources",
    description := "Optimized specifically for English. Slightly better English accuracy than multilingual Tiny, with the same fast speed." },
  { id := "base.en", label := "Base (EN)", desc := "Fast English", detail := "74M params",
    tradeoff := "English only, good for clear audio", category := "english",
    speed := 4, accuracy := 2, size := "~145 MB",
    bestFor := "English podcasts, clear speech, casual use",
    description := "English-optimized Base model. Better English recognition than the multilingual version with similar speed characteristics." },
  { id := "small.en", label := "Small (EN)", desc := "Balanced English", detail := "244M params",
    tradeoff := "English only, good accuracy", category := "english",
    speed := 3, accuracy := 4, size := "~466 MB",
    bestFor := "English meetings, interviews, general dictation",
    description := "Great balance of speed and accuracy for English. Handles various American and British accents well." },
  { id := "medium.en", label := "Medium (EN)", desc := "Accurate English", detail := "769M params",
    tradeoff := "English only, high quality", category := "english",
    speed := 2, accuracy := 5, size := "~1.5 GB",
    bestFor := "Professional English transcription, accented English",
    description := "High-accuracy English model. Excellent for professional transcription, technical content, and various English accents." },
  { id := "distil-small.en", label := "Distil Small", desc := "Fast Distilled", detail := "166M params",
    tradeoff := "English only, 6x faster than small", category := "distilled",
    speed := 5, accuracy := 3, size := "~332 MB",
    bestFor := "Fast English transcription, real-time use",
    description := "Distilled from larger models using knowledge distillation. 6x faster than Small with similar accuracy. Great for real-time English transcription." },
  { id := "distil-medium.en", label := "Distil Medium", desc := "Balanced Distilled", detail := "394M params",
    tradeoff := "English only, faster than medium", category := "distilled",
    speed := 4, accuracy := 4, size := "~756 MB",
    bestFor := "Quality English transcription with good speed",
    description := "Balanced distilled model offering good accuracy at improved speeds. Excellent choice for English-only workflows." },
  { id := "distil-large-v2", label := "Distil Large v2", desc := "Fast + Accurate", detail := "756M params",
    tradeoff := "English only, 6x faster than large", category := "distilled",
    speed := 4, accuracy := 5, size := "~1.5 GB",
    bestFor := "Professional English, speed + accuracy balance",
    description := "Distilled from Large-v2. Achieves 6x speedup while maintaining most of the accuracy. Excellent for professional English transcription." },
  { id := "distil-large-v3", label := "Distil Large v3", desc := "Best Distilled", detail := "756M params",
    tradeoff := "English only, near large-v3 quality", category := "distilled",
    speed := 4, accuracy := 5, size := "~1.5 GB",
    bestFor := "Best English accuracy with reasonable speed",
    description := "The best distilled model. Near large-v3 accuracy at significantly faster speeds. Highly recommended for English-only professional use." }
]

/-- The helper `isEnglishOnlyModel` from `src/lib/constants.ts` (lines 142-143):
`modelId.endsWith('.en') || modelId.startsWith('distil-')`.  JavaScript
`endsWith`/`startsWith` are the suffix/prefix tests on the string's
character sequence, rendered here on the underlying character lists. -/
def isEnglishOnlyModel (modelId : String) : Bool :=
  List.isSuffixOf ".en".data modelId.data || List.isPrefixOf "distil-".data modelId.data

/-! ## Model Registry & Cache

Modelled from the spec: the repository source tree holds only the React
frontend; the Python backend implementing the Model Registry (§4.3) is
missing, so it is modelled from the specification text. -/

/-- Modelled from the spec: a ModelDescriptor identifies a model variant
(id, language capability, size class); immutable configuration data. -/
structure ModelDescriptor where
  id : String
deriving DecidableEq, Repr

/-- Modelled from the spec: a compute backend device (CPU or GPU), each
capable of holding one resident model. -/
inductive Backend where
  | cpu
  | gpu
deriving DecidableEq, Repr

/-- Modelled from the spec: a LoadedModel is a ModelDescriptor plus an
opaque inference handle and the backend device it is bound to. -/
structure LoadedModel where
  desc : ModelDescriptor
  backend : Backend
  handle : Nat
deriving DecidableEq, Repr

/-- Modelled from the spec: loading fails with `ModelLoadError` on missing
weights, unsupported backend, or insufficient device memory. -/
inductive ModelLoadError where
  | missingWeights
  | unsupportedBackend
  | insufficientMemory
deriving DecidableEq, Repr

/-- Modelled from the spec: the opaque model-loading capability; returns an
inference handle or a `ModelLoadError`. -/
abbrev Loader : Type := ModelDescriptor → Backend → Except ModelLoadError Nat

/-- Modelled from the spec: the registry state is an arena of models keyed
by the backend device they occupy ("model as an arena entry keyed by
(descriptor, backend)"). -/
abbrev RegistryState : Type := List (Backend × LoadedModel)

/-- The model currently resident on backend device `b`, if any. -/
def residentOn (st : RegistryState) (b : Backend) : Option LoadedModel :=
  (st.find? (fun p => decide (p.1 = b))).map Prod.snd

/-- Modelled from the spec: `evict(backend)` releases whatever model
occupies the device; idempotent. -/
def evict (st : RegistryState) (b : Backend) : RegistryState :=
  st.filter (fun p => decide (p.1 ≠ b))

/-- Modelled from the spec: `acquire(descriptor, backend)`. If a
LoadedModel already matches descriptor+backend, return it immediately
(cache hit, no load). Otherwise load the requested model and, only once
the load is confirmed, evict the previous occupant and install the new
model (switching is load-then-evict, never evict-then-load); a failed
load leaves the registry unchanged. The third component counts load
operations performed by the call (0 on a cache hit, 1 otherwise). -/
def acquire (loader : Loader) (st : RegistryState) (d : ModelDescriptor) (b : Backend) :
    Except ModelLoadError LoadedModel × RegistryState × Nat :=
  match residentOn st b with
  | some lm =>
    if lm.desc = d then
      (Except.ok lm, st, 0)
    else
      match loader d b with
      | Except.error e => (Except.error e, st, 1)
      | Except.ok h =>
        let lm' : LoadedModel := ⟨d, b, h⟩
        (Except.ok lm', (b, lm') :: evict st b, 1)
  | none =>
    match loader d b with
    | Except.error e => (Except.error e, st, 1)
    | Except.ok h =>
      let lm' : LoadedModel := ⟨d, b, h⟩
      (Except.ok lm', (b, lm') :: evict st b, 1)

/-- Modelled from the spec: registry states reachable from the initial
empty registry by any sequence of `acquire` and `evict` operations. -/
inductive ReachableRegistry : RegistryState → Prop where
  | init : ReachableRegistry []
  | acq {st st' : RegistryState} (loader : Loader) (d : ModelDescriptor) (b : Backend)
      (r : Except ModelLoadError LoadedModel) (n : Nat) :
      ReachableRegistry st → acquire loader st d b = (r, st', n) → ReachableRegistry st'
  | ev {st : RegistryState} (b : Backend) :
      ReachableRegistry st → ReachableRegistry (evict st b)

/-! ## Transcription Engine (§4.4)

Modelled from the spec: adapter over the opaque inference capability. -/

/-- Modelled from the spec: a fixed-size block of sampled audio; the
rolling energy/activity estimate of a frame is what matters to the
segmenter and to silence detection. -/
structure AudioFrame where
  energy : Nat
deriving DecidableEq, Repr

/-- Modelled from the spec: an AudioSegment is an ordered sequence of
AudioFrames delimited by detected speech start/end. -/
structure AudioSegment where
  frames : List AudioFrame
deriving DecidableEq, Repr

/-- Modelled from the spec: a TranscriptResult holds text, per-word
timing offsets in milliseconds, the language tag, and a confidence
value (scaled to percent here). -/
structure TranscriptResult where
  text : String
  timingsMs : List Nat
  language : String
  confidencePct : Nat
deriving DecidableEq, Repr

/-- Modelled from the spec: per-segment inference failures. -/
inductive InferenceError where
  | inferenceFailed
  | timeout
deriving DecidableEq, Repr

/-- A segment is pure silence when every frame carries zero energy; an
empty segment is trivially silent. -/
def isSilentSegment (seg : AudioSegment) : Bool :=
  seg.frames.all (fun f => decide (f.energy = 0))

/-- Modelled from the spec: `transcribe(segment, model, languageHint)`.
An empty or pure-silence segment yields a TranscriptResult with empty
text rather than an error; otherwise the opaque inference capability
`infer` is invoked and may fail with `InferenceError`. -/
def transcribe (infer : AudioSegment → LoadedModel → String → Except InferenceError TranscriptResult)
    (seg : AudioSegment) (model : LoadedModel) (languageHint : String) :
    Except InferenceError TranscriptResult :=
  if seg.frames.isEmpty || isSilentSegment seg then
    Except.ok { text := "", timingsMs := [], language := languageHint, confidencePct := 0 }
  else
    infer seg model languageHint

/-! ## Ordered result delivery (§5, §7)

Modelled from the spec: results are delivered to the Session Controller in
submission order even if completion order differs, via a reorder buffer
keyed by segment sequence number; a failed or timed-out segment's slot in
the ordered result stream is filled with an empty/marked result. -/

/-- Modelled from the spec: the outcome of one segment's transcription as
it reaches the reorder buffer — a completed transcript, an inference
failure, or a timeout. -/
inductive SegOutcome where
  | completed (text : String)
  | failedSeg
  | timedOut
deriving DecidableEq, Repr

/-- A result as placed in the ordered delivery stream: its text and a
marker telling whether the slot stands for a failed/timed-out segment. -/
structure DeliveredResult where
  text : String
  marked : Bool
deriving DecidableEq, Repr

/-- Modelled from the spec: the result placed in a segment's slot — the
transcript text for a completed segment, an empty marked result for a
failure or timeout (the slot is filled, never skipped). -/
def resultOf : SegOutcome → DeliveredResult
  | SegOutcome.completed t => ⟨t, false⟩
  | SegOutcome.failedSeg => ⟨"", true⟩
  | SegOutcome.timedOut => ⟨"", true⟩

/-- State of the reorder buffer: the next sequence number to deliver, the
out-of-order completions still held back, and the results delivered to the
sink so far (oldest first), each tagged with its sequence number. -/
structure ReorderState where
  next : Nat
  buffer : List (Nat × DeliveredResult)
  delivered : List (Nat × DeliveredResult)
deriving DecidableEq, Repr

/-- The initial reorder state of a fresh session. -/
def initReorder : ReorderState := ⟨0, [], []⟩

/-- Deliver from the buffer every result whose turn has come: while the
entry keyed by `next` is present, move it to the delivered stream and
advance `next`. -/
def drainReady (st : ReorderState) : ReorderState :=
  match h : st.buffer.find? (fun p => decide (p.1 = st.next)) with
  | none => st
  | some p =>
    drainReady { next := st.next + 1,
                 buffer := st.buffer.eraseP (fun q => decide (q.1 = st.next)),
                 delivered := st.delivered ++ [p] }
termination_by st.buffer.length
decreasing_by
  have hm := List.mem_of_find?_eq_some h
  have hlen := List.length_eraseP_of_mem hm (List.find?_some h)
  have hpos : 0 < st.buffer.length := List.length_pos_of_mem hm
  omega

/-- Modelled from the spec: handle one completion event `(seq, outcome)`.
A result for a slot already delivered (e.g. a cooperative inference result
arriving after its timeout fired) or already buffered is discarded;
otherwise the slot's result enters the reorder buffer and every result
whose turn has come is delivered. -/
def handleOutcome (st : ReorderState) (ev : Nat × SegOutcome) : ReorderState :=
  if ev.1 < st.next || st.buffer.any (fun p => decide (p.1 = ev.1)) then st
  else drainReady { st with buffer := (ev.1, resultOf ev.2) :: st.buffer }

/-- Run the reorder buffer over a whole interleaving of segment
completion, failure and timeout events. -/
def runReorder (events : List (Nat × SegOutcome)) : ReorderState :=
  events.foldl handleOutcome initReorder

/-! ## Voice Activity Segmenter (§4.2)

Modelled from the spec: frames are classified as speech or silence by an
energy threshold; a segment opens once activity is sustained for the
debounce duration, closes when trailing silence persists beyond the
silence window or the maximum segment duration is reached, and an open
segment is force-closed and flushed when capture stops. Durations are
measured in frames (frames are fixed-duration). -/

/-- Modelled from the spec: segmenter tuning — the activity threshold, the
minimum sustained duration (debounce, in frames), the trailing-silence
window (frames), and the maximum segment duration (frames). -/
structure VadParams where
  threshold : Nat
  debounceFrames : Nat
  silenceWindow : Nat
  maxFrames : Nat
deriving DecidableEq, Repr

/-- A frame counts as speech activity when its energy estimate exceeds the
threshold. -/
def isActive (p : VadParams) (f : AudioFrame) : Bool :=
  decide (p.threshold < f.energy)

/-- Segmenter state: the run of consecutive active frames not yet long
enough to open a segment (debounce), and the currently open segment with
its trailing-silence run length, if one is open. -/
structure VadState where
  pending : List AudioFrame
  current : Option (List AudioFrame × Nat)
deriving DecidableEq, Repr

/-- The segmenter state at the start of a recording session. -/
def initVad : VadState := ⟨[], none⟩

/-- Modelled from the spec: process one frame, returning the new state and
the segments emitted by this frame (at most one). While a segment is open,
the frame is appended; the segment is emitted when it reaches the maximum
duration (hard cutoff) or when trailing silence persists beyond the
silence window. While closed, active frames accumulate in the debounce
run and a segment opens (containing the sustained run) once the run
reaches the debounce length; a transient run is discarded on silence. -/
def vadStep (p : VadParams) (st : VadState) (f : AudioFrame) : VadState × List AudioSegment :=
  match st.current with
  | some (seg, sil) =>
    let seg' := seg ++ [f]
    if p.maxFrames ≤ seg'.length then
      (⟨[], none⟩, [⟨seg'⟩])
    else if isActive p f then
      (⟨[], some (seg', 0)⟩, [])
    else if p.silenceWindow ≤ sil + 1 then
      (⟨[], none⟩, [⟨seg'⟩])
    else
      (⟨[], some (seg', sil + 1)⟩, [])
  | none =>
    if isActive p f then
      let pnd := st.pending ++ [f]
      if p.debounceFrames ≤ pnd.length then
        if p.maxFrames ≤ pnd.length then
          (⟨[], none⟩, [⟨pnd⟩])
        else
          (⟨[], some (pnd, 0)⟩, [])
      else
        (⟨pnd, none⟩, [])
    else
      (⟨[], none⟩, [])

/-- Feed a list of frames through the segmenter from state `st`,
collecting every emitted segment and the final state. -/
def vadRunFrom (p : VadParams) (st : VadState) : List AudioFrame → VadState × List AudioSegment
  | [] => (st, [])
  | f :: fs =>
    let (st', out) := vadStep p st f
    let (st'', rest) := vadRunFrom p st' fs
    (st'', out ++ rest)

/-- Modelled from the spec: a whole recording session — feed all captured
frames through the segmenter, then force-close and flush the still-open
segment when capture stops (so trailing words are not lost); a pending
run that never sustained the debounce duration opens no segment. -/
def vadSession (p : VadParams) (frames : List AudioFrame) : List AudioSegment :=
  let (st, out) := vadRunFrom p initVad frames
  match st.current with
  | some (seg, _) => out ++ [⟨seg⟩]
  | none => out

/-! ## Session Controller state machine (§4.5)

Modelled from the spec: states Idle, Recording, Draining, Cancelling,
Failed; `start()` while Recording is a no-op reporting AlreadyRecording;
`stop()`/`cancel()` while Idle is a no-op. -/

/-- Modelled from the spec: the Session Controller's states. -/
inductive SessionPhase where
  | idle
  | recording
  | draining
  | cancelling
  | failed
deriving DecidableEq, Repr

/-- The commands the Session Controller exposes to the outer
application. -/
inductive SessionCmd where
  | start
  | stop
  | cancel
deriving DecidableEq, Repr

/-- What a command reports back to the caller. -/
inductive SessionReport where
  | started
  | alreadyRecording
  | stopRequested
  | cancelRequested
  | ignored
deriving DecidableEq, Repr

/-- Side effects a transition triggers on the pipeline. -/
inductive SessionEffect where
  | openCapture
  | closeCapture
  | discardInFlight
deriving DecidableEq, Repr

/-- Modelled from the spec: one step of the Session Controller state
machine — the new state, what is reported to the caller, and the side
effects performed. `start()` in Idle begins capture; `start()` while
Recording is a no-op reporting AlreadyRecording; `stop()` in Recording
enters Draining (capture closed, in-flight work allowed to finish);
`cancel()` in Recording enters Cancelling (in-flight work discarded);
any other command is a no-op with no effect. -/
def sessionStep (s : SessionPhase) (c : SessionCmd) :
    SessionPhase × SessionReport × List SessionEffect :=
  match s, c with
  | SessionPhase.idle, SessionCmd.start =>
    (SessionPhase.recording, SessionReport.started, [SessionEffect.openCapture])
  | SessionPhase.recording, SessionCmd.start =>
    (SessionPhase.recording, SessionReport.alreadyRecording, [])
  | SessionPhase.recording, SessionCmd.stop =>
    (SessionPhase.draining, SessionReport.stopRequested, [SessionEffect.closeCapture])
  | SessionPhase.recording, SessionCmd.cancel =>
    (SessionPhase.cancelling, SessionReport.cancelRequested,
      [SessionEffect.closeCapture, SessionEffect.discardInFlight])
  | s, _ => (s, SessionReport.ignored, [])

/-! ## Auxiliary invariants used by the proofs -/

/-- Invariant of the reorder buffer relative to the events processed so
far: the delivered stream is exactly the sequence numbers `0..next-1` in
order; every buffered entry is strictly beyond `next`; buffered keys are
distinct; every held or delivered result originates in a processed event
(failures mapped to the marked empty result); and every processed event's
sequence number has either been delivered or is still buffered. -/
def ReorderInv (evs : List (Nat × SegOutcome)) (st : ReorderState) : Prop :=
  st.delivered.map Prod.fst = List.range st.next ∧
  (∀ q ∈ st.buffer, st.next < q.1) ∧
  (st.buffer.map Prod.fst).Nodup ∧
  (∀ q ∈ st.delivered ++ st.buffer, ∃ oc, (q.1, oc) ∈ evs ∧ q.2 = resultOf oc) ∧
  (∀ e ∈ evs, e.1 < st.next ∨ e.1 ∈ st.buffer.map Prod.fst)

/-- Invariant of the segmenter state: the debounce run is still shorter
than the debounce length, and an open segment always holds at least the
debounce run and strictly fewer frames than the hard cutoff. -/
def VadInv (p : VadParams) (st : VadState) : Prop :=
  st.pending.length < p.debounceFrames ∧
  ∀ seg sil, st.current = some (seg, sil) →
    p.debounceFrames ≤ seg.length ∧ seg.length < p.maxFrames

/-! ## Theorems: frontend display (StatsHeader) -/

/-- C1: for every settings object and device-enumeration result, if the
configured microphone id equals -1 the microphone resolves to the
operating-system default — `StatsHeader` displays "System Default" —
regardless of what the enumeration returned. -/
theorem mic_neg_one_is_system_default (settings : AppSettings) (options : AppOptions)
    (h : settings.microphone = -1) :
    micDisplayName settings options = "System Default" := by
  simp [micDisplayName, h]

/-- Witness for C1: a configuration with microphone id -1 displays
"System Default" even though the enumeration contains a descriptor whose
id is literally -1. -/
theorem mic_neg_one_is_system_default_witness :
    micDisplayName ⟨"turbo", "auto", -1⟩ ⟨[⟨-1, "Front Panel"⟩, ⟨0, "Mic A"⟩]⟩ =
      "System Default" :=
  mic_neg_one_is_system_default _ _ rfl

/-- C10: in `StatsHeader`, when the configured microphone id is not -1 and
no enumerated microphone carries that id, the displayed name is the
fallback string "Unknown Mic". -/
theorem mic_unmatched_is_unknown (settings : AppSettings) (options : AppOptions)
    (h1 : settings.microphone ≠ -1)
    (h2 : ∀ m ∈ options.microphones, m.id ≠ settings.microphone) :
    micDisplayName settings options = "Unknown Mic" := by
  have hfind : findCurrentMic options settings.microphone = none := by
    apply List.find?_eq_none.mpr
    intro m hm
    simpa using h2 m hm
  simp [micDisplayName, h1, hfind]

/-- Witness for C10: microphone id 2 with an enumeration holding only ids
0 and 1 displays "Unknown Mic". -/
theorem mic_unmatched_is_unknown_witness :
    micDisplayName ⟨"turbo", "auto", 2⟩ ⟨[⟨0, "Mic A"⟩, ⟨1, "Mic B"⟩]⟩ = "Unknown Mic" :=
  mic_unmatched_is_unknown _ _ (by decide) (by decide)

/-! ## Theorems: model catalogue -/

/-- C2: for every entry of `MODEL_OPTIONS`, the id-pattern test
`isEnglishOnlyModel` returns true exactly when the entry's category is not
'multilingual' — the 'english' and 'distilled' entries are precisely the
ones classified English-only. -/
theorem english_only_iff_not_multilingual (m : ModelOption) (hm : m ∈ MODEL_OPTIONS) :
    isEnglishOnlyModel m.id = true ↔ m.category ≠ "multilingual" := by
  have hall : ∀ m ∈ MODEL_OPTIONS,
      (isEnglishOnlyModel m.id = true ↔ m.category ≠ "multilingual") := by decide
  exact hall m hm

/-- Witness for C2: the distilled entry `distil-large-v3` is classified
English-only by the id-pattern test. -/
theorem english_only_iff_not_multilingual_witness :
    isEnglishOnlyModel "distil-large-v3" = true :=
  (english_only_iff_not_multilingual
    { id := "distil-large-v3", label := "Distil Large v3", desc := "Best Distilled",
      detail := "756M params", tradeoff := "English only, near large-v3 quality",
      category := "distilled", speed := 4, accuracy := 5, size := "~1.5 GB",
      bestFor := "Best English accuracy with reasonable speed",
      description := "The best distilled model. Near large-v3 accuracy at significantly faster speeds. Highly recommended for English-only professional use." }
    (by decide)).mpr (by decide)

/-! ## Theorems: Session Controller idempotence -/

/-- C9: the Session Controller's stop and cancel are idempotent — a second
`stop()` after any `stop()` changes nothing and performs no effect, and
`stop()` or `cancel()` in Idle is a no-op — while `start()` during
Recording leaves the state unchanged and reports AlreadyRecording. -/
theorem session_controls_idempotent :
    (∀ s : SessionPhase,
      sessionStep (sessionStep s SessionCmd.stop).1 SessionCmd.stop =
        ((sessionStep s SessionCmd.stop).1, SessionReport.ignored, [])) ∧
    sessionStep SessionPhase.idle SessionCmd.stop =
      (SessionPhase.idle, SessionReport.ignored, []) ∧
    sessionStep SessionPhase.idle SessionCmd.cancel =
      (SessionPhase.idle, SessionReport.ignored, []) ∧
    sessionStep SessionPhase.recording SessionCmd.start =
      (SessionPhase.recording, SessionReport.alreadyRecording, []) := by
  refine ⟨?_, rfl, rfl, rfl⟩
  intro s
  cases s <;> rfl

/-! ## Theorems: Transcription Engine on silence -/

/-- C7: for every empty or pure-silence segment, `transcribe` returns a
TranscriptResult with empty text and never an InferenceError, whatever the
underlying inference capability would have done. -/
theorem silence_transcribes_to_empty
    (infer : AudioSegment → LoadedModel → String → Except InferenceError TranscriptResult)
    (seg : AudioSegment) (model : LoadedModel) (hint : String)
    (h : seg.frames = [] ∨ isSilentSegment seg = true) :
    ∃ r, transcribe infer seg model hint = Except.ok r ∧ r.text = "" := by
  have hc : (seg.frames.isEmpty || isSilentSegment seg) = true := by
    rcases h with h | h
    · simp [h]
    · simp [h]
  refine ⟨{ text := "", timingsMs := [], language := hint, confidencePct := 0 }, ?_, rfl⟩
  simp [transcribe, hc]

/-- Witness for C7: a two-frame pure-silence segment transcribes to empty
text even under an inference capability that always fails. -/
theorem silence_transcribes_to_empty_witness :
    ∃ r, transcribe (fun _ _ _ => Except.error InferenceError.inferenceFailed)
      ⟨[⟨0⟩, ⟨0⟩]⟩ ⟨⟨"small"⟩, Backend.cpu, 0⟩ "auto" = Except.ok r ∧ r.text = "" :=
  silence_transcribes_to_empty _ _ _ _ (Or.inr (by decide))

/-! ## Theorems: Model Registry & Cache -/

/-- A model just installed at the head of the arena is the resident model
of its device. -/
theorem residentOn_cons_self (t : RegistryState) (b : Backend) (lm : LoadedModel) :
    residentOn ((b, lm) :: t) b = some lm := by
  simp [residentOn, List.find?]

/-- Eviction only removes entries: the keys of the arena after `evict`
form a sublist of the keys before. -/
theorem evict_keys_sublist (st : RegistryState) (b : Backend) :
    List.Sublist ((evict st b).map Prod.fst) (st.map Prod.fst) :=
  (List.filter_sublist st).map Prod.fst

/-- After `evict st b`, no entry is keyed by `b`. -/
theorem not_mem_evict_keys (st : RegistryState) (b : Backend) :
    b ∉ (evict st b).map Prod.fst := by
  intro hb
  obtain ⟨p, hp, hpb⟩ := List.mem_map.mp hb
  have hmem := List.of_mem_filter hp
  simp [hpb] at hmem

/-- An `acquire` call either leaves the arena unchanged or installs one freshly
loaded model for the requested backend on top of the evicted arena. -/
theorem acquire_state_cases (loader : Loader) (st : RegistryState) (d : ModelDescriptor)
    (b : Backend) (r : Except ModelLoadError LoadedModel) (st' : RegistryState) (n : Nat)
    (h : acquire loader st d b = (r, st', n)) :
    st' = st ∨ ∃ lm', st' = (b, lm') :: evict st b := by
  unfold acquire at h
  split at h
  · split at h
    · simp only [Prod.mk.injEq] at h
      exact Or.inl h.2.1.symm
    · split at h
      · simp only [Prod.mk.injEq] at h
        exact Or.inl h.2.1.symm
      · simp only [Prod.mk.injEq] at h
        exact Or.inr ⟨_, h.2.1.symm⟩
  · split at h
    · simp only [Prod.mk.injEq] at h
      exact Or.inl h.2.1.symm
    · simp only [Prod.mk.injEq] at h
      exact Or.inr ⟨_, h.2.1.symm⟩

/-- C3: after `acquire(D, backend)` returns a LoadedModel, an immediate
second `acquire(D, backend)` is a cache hit — it performs no load and
returns the same LoadedModel with the registry unchanged — so whenever
the first call was not itself a cache hit (empty device or different
resident model), the total load count across the two calls is 1. -/
theorem repeat_acquire_is_cache_hit (loader : Loader) (st : RegistryState)
    (d : ModelDescriptor) (b : Backend) (lm : LoadedModel) (st' : RegistryState) (n : Nat)
    (h : acquire loader st d b = (Except.ok lm, st', n)) :
    acquire loader st' d b = (Except.ok lm, st', 0) ∧ n ≤ 1 ∧
      (residentOn st b = none → n + 0 = 1) ∧
      (∀ lm₀, residentOn st b = some lm₀ → lm₀.desc ≠ d → n + 0 = 1) := by
  unfold acquire at h
  split at h
  next lm0 hres =>
    split at h
    next hd =>
      simp only [Prod.mk.injEq, Except.ok.injEq] at h
      obtain ⟨h1, h2, h3⟩ := h
      subst h1; subst h2; subst h3
      refine ⟨by simp [acquire, hres, hd], by omega, ?_, ?_⟩
      · intro hn
        simp [hres] at hn
      · intro lm₁ hsome hne
        rw [hres] at hsome
        injection hsome with hsome
        exact absurd (hsome ▸ hd) hne
    next hd =>
      split at h
      next e2 hl =>
        simp at h
      next hh hl =>
        simp only [Prod.mk.injEq, Except.ok.injEq] at h
        obtain ⟨h1, h2, h3⟩ := h
        subst h1; subst h2; subst h3
        refine ⟨?_, by omega, fun _ => rfl, fun _ _ _ => rfl⟩
        simp [acquire, residentOn_cons_self]
  next hres =>
    split at h
    next e2 hl =>
      simp at h
    next hh hl =>
      simp only [Prod.mk.injEq, Except.ok.injEq] at h
      obtain ⟨h1, h2, h3⟩ := h
      subst h1; subst h2; subst h3
      refine ⟨?_, by omega, fun _ => rfl, fun _ _ _ => rfl⟩
      simp [acquire, residentOn_cons_self]

/-- Witness for C3: cold-starting on an empty registry and acquiring the
same descriptor twice loads exactly once; the second call is a cache
hit. -/
theorem repeat_acquire_is_cache_hit_witness :
    (acquire (fun _ _ => Except.ok 7)
        [(Backend.cpu, (⟨⟨"small"⟩, Backend.cpu, 7⟩ : LoadedModel))] ⟨"small"⟩ Backend.cpu =
      (Except.ok ⟨⟨"small"⟩, Backend.cpu, 7⟩,
        [(Backend.cpu, (⟨⟨"small"⟩, Backend.cpu, 7⟩ : LoadedModel))], 0)) ∧ 1 ≤ 1 ∧
      (residentOn [] Backend.cpu = none → 1 + 0 = 1) ∧
      (∀ lm₀, residentOn [] Backend.cpu = some lm₀ → lm₀.desc ≠ ⟨"small"⟩ → 1 + 0 = 1) :=
  repeat_acquire_is_cache_hit (fun _ _ => Except.ok 7) [] ⟨"small"⟩ Backend.cpu
    ⟨⟨"small"⟩, Backend.cpu, 7⟩
    [(Backend.cpu, (⟨⟨"small"⟩, Backend.cpu, 7⟩ : LoadedModel))] 1 rfl

/-- C6: a model switch that fails with `ModelLoadError` leaves the
registry unchanged — in particular the previously loaded model on that
backend, if any, is still resident; the working model is never evicted
before the replacement is confirmed loaded. -/
theorem failed_switch_preserves_registry (loader : Loader) (st : RegistryState)
    (d : ModelDescriptor) (b : Backend) (e : ModelLoadError) (st' : RegistryState) (n : Nat)
    (h : acquire loader st d b = (Except.error e, st', n)) :
    st' = st ∧ residentOn st' b = residentOn st b := by
  unfold acquire at h
  split at h
  · split at h
    · simp at h
    · split at h
      · simp only [Prod.mk.injEq] at h
        exact ⟨h.2.1.symm, by rw [h.2.1]⟩
      · simp at h
  · split at h
    · simp only [Prod.mk.injEq] at h
      exact ⟨h.2.1.symm, by rw [h.2.1]⟩
    · simp at h

/-- Witness for C6: an occupied CPU device survives a switch attempt whose
load fails — the registry and its resident model are untouched. -/
theorem failed_switch_preserves_registry_witness :
    ([(Backend.cpu, (⟨⟨"small"⟩, Backend.cpu, 3⟩ : LoadedModel))] : RegistryState) =
      [(Backend.cpu, (⟨⟨"small"⟩, Backend.cpu, 3⟩ : LoadedModel))] ∧
    residentOn [(Backend.cpu, (⟨⟨"small"⟩, Backend.cpu, 3⟩ : LoadedModel))] Backend.cpu =
      residentOn [(Backend.cpu, (⟨⟨"small"⟩, Backend.cpu, 3⟩ : LoadedModel))] Backend.cpu :=
  failed_switch_preserves_registry (fun _ _ => Except.error ModelLoadError.missingWeights)
    [(Backend.cpu, ⟨⟨"small"⟩, Backend.cpu, 3⟩)] ⟨"turbo"⟩ Backend.cpu
    ModelLoadError.missingWeights _ 1 rfl

/-- C5: in every registry state reachable from the empty registry by
`acquire` and `evict` operations, each backend device holds at most one
resident LoadedModel (the arena keys are distinct); and a successful
`acquire` that replaces a different resident model leaves the former
occupant evicted — it is absent from the resulting state. -/
theorem registry_single_resident_per_device (st : RegistryState)
    (h : ReachableRegistry st) :
    ((st.map Prod.fst).Nodup) ∧
    (∀ (loader : Loader) (d : ModelDescriptor) (b : Backend) (lm lm' : LoadedModel)
        (st' : RegistryState) (n : Nat),
      residentOn st b = some lm → lm.desc ≠ d →
      acquire loader st d b = (Except.ok lm', st', n) → (b, lm) ∉ st') := by
  constructor
  · induction h with
    | init => simp
    | acq loader d b r n hst hacq ih =>
      rcases acquire_state_cases loader _ d b r _ n hacq with heq | ⟨lm', heq⟩
      · rw [heq]; exact ih
      · rw [heq]
        simp only [List.map_cons, List.nodup_cons]
        exact ⟨not_mem_evict_keys _ b, List.Nodup.sublist (evict_keys_sublist _ b) ih⟩
    | ev b hst ih =>
      exact List.Nodup.sublist (evict_keys_sublist _ b) ih
  · intro loader d b lm lm' st' n hres hd hacq
    unfold acquire at hacq
    split at hacq
    next lm0 hres0 =>
      rw [hres0] at hres
      injection hres with hres
      subst hres
      split at hacq
      next hdd => exact absurd hdd hd
      next hdd =>
        split at hacq
        next e2 hl =>
          simp at hacq
        next hh hl =>
          simp only [Prod.mk.injEq, Except.ok.injEq] at hacq
          obtain ⟨h1, h2, h3⟩ := hacq
          subst h2
          intro hmem
          rcases List.mem_cons.mp hmem with hhead | htail
          · simp only [Prod.mk.injEq] at hhead
            exact hd (by rw [hhead.2])
          · have hfil := List.of_mem_filter htail
            simp at hfil
    next hres0 =>
      rw [hres0] at hres
      cases hres

/-- Witness for C5: the registry obtained by one successful cold acquire
on the CPU device is reachable and satisfies the single-resident
invariant. -/
theorem registry_single_resident_per_device_witness :
    ((([(Backend.cpu, (⟨⟨"small"⟩, Backend.cpu, 7⟩ : LoadedModel))] :
        RegistryState).map Prod.fst).Nodup) ∧
    (∀ (loader : Loader) (d : ModelDescriptor) (b : Backend) (lm lm' : LoadedModel)
        (st' : RegistryState) (n : Nat),
      residentOn [(Backend.cpu, (⟨⟨"small"⟩, Backend.cpu, 7⟩ : LoadedModel))] b = some lm →
      lm.desc ≠ d →
      acquire loader [(Backend.cpu, (⟨⟨"small"⟩, Backend.cpu, 7⟩ : LoadedModel))] d b =
        (Except.ok lm', st', n) →
      (b, lm) ∉ st') :=
  registry_single_resident_per_device _
    (ReachableRegistry.acq (fun _ _ => Except.ok 7) ⟨"small"⟩ Backend.cpu
      (Except.ok ⟨⟨"small"⟩, Backend.cpu, 7⟩) 1 ReachableRegistry.init rfl)

/-! ## Theorems: Voice Activity Segmenter -/

/-- One segmenter step preserves the segmenter invariant, and every
segment it emits has its frame count within the debounce/maximum
bounds. -/
theorem vadStep_inv (p : VadParams) (st : VadState) (f : AudioFrame)
    (h1 : 1 ≤ p.debounceFrames) (h2 : p.debounceFrames ≤ p.maxFrames)
    (hinv : VadInv p st) :
    VadInv p (vadStep p st f).1 ∧
      ∀ seg ∈ (vadStep p st f).2,
        p.debounceFrames ≤ seg.frames.length ∧ seg.frames.length ≤ p.maxFrames := by
  obtain ⟨pend, cur⟩ := st
  unfold VadInv at hinv
  obtain ⟨hpend, hcur⟩ := hinv
  simp only at hpend hcur
  cases cur with
  | some pr =>
    obtain ⟨seg, sil⟩ := pr
    obtain ⟨hlo, hhi⟩ := hcur seg sil rfl
    simp only [vadStep]
    split
    next hmax =>
      refine ⟨⟨by simpa using h1, by simp⟩, ?_⟩
      intro s hs
      simp only [List.mem_singleton] at hs
      subst hs
      simp only [List.length_append, List.length_singleton]
      omega
    next hmax =>
      simp only [List.length_append, List.length_singleton] at hmax
      split
      next hact =>
        refine ⟨⟨by simpa using h1, ?_⟩, by simp⟩
        intro s l hsl
        simp only [Option.some.injEq, Prod.mk.injEq] at hsl
        obtain ⟨hs, -⟩ := hsl
        subst hs
        simp only [List.length_append, List.length_singleton]
        omega
      next hact =>
        split
        next hsil =>
          refine ⟨⟨by simpa using h1, by simp⟩, ?_⟩
          intro s hs
          simp only [List.mem_singleton] at hs
          subst hs
          simp only [List.length_append, List.length_singleton]
          omega
        next hsil =>
          refine ⟨⟨by simpa using h1, ?_⟩, by simp⟩
          intro s l hsl
          simp only [Option.some.injEq, Prod.mk.injEq] at hsl
          obtain ⟨hs, -⟩ := hsl
          subst hs
          simp only [List.length_append, List.length_singleton]
          omega
  | none =>
    simp only [vadStep]
    split
    next hact =>
      split
      next hdeb =>
        simp only [List.length_append, List.length_singleton] at hdeb
        split
        next hmax =>
          refine ⟨⟨by simpa using h1, by simp⟩, ?_⟩
          intro s hs
          simp only [List.mem_singleton] at hs
          subst hs
          simp only [List.length_append, List.length_singleton]
          omega
        next hmax =>
          simp only [List.length_append, List.length_singleton] at hmax
          refine ⟨⟨by simpa using h1, ?_⟩, by simp⟩
          intro s l hsl
          simp only [Option.some.injEq, Prod.mk.injEq] at hsl
          obtain ⟨hs, -⟩ := hsl
          subst hs
          simp only [List.length_append, List.length_singleton]
          omega
      next hdeb =>
        simp only [List.length_append, List.length_singleton] at hdeb
        refine ⟨⟨?_, by simp⟩, by simp⟩
        show (pend ++ [f]).length < p.debounceFrames
        simp only [List.length_append, List.length_singleton]
        omega
    next hact =>
      exact ⟨⟨by simpa using h1, by simp⟩, by simp⟩

/-- Feeding any frame list from an invariant-respecting state keeps the
invariant and only emits segments within the duration bounds. -/
theorem vadRunFrom_inv (p : VadParams) (frames : List AudioFrame) :
    ∀ st : VadState, 1 ≤ p.debounceFrames → p.debounceFrames ≤ p.maxFrames →
    VadInv p st →
    VadInv p (vadRunFrom p st frames).1 ∧
      ∀ seg ∈ (vadRunFrom p st frames).2,
        p.debounceFrames ≤ seg.frames.length ∧ seg.frames.length ≤ p.maxFrames := by
  induction frames with
  | nil =>
    intro st h1 h2 hinv
    exact ⟨hinv, by simp [vadRunFrom]⟩
  | cons f fs ih =>
    intro st h1 h2 hinv
    obtain ⟨hinv', hout⟩ := vadStep_inv p st f h1 h2 hinv
    obtain ⟨hinv'', hrest⟩ := ih (vadStep p st f).1 h1 h2 hinv'
    rcases hv : vadStep p st f with ⟨st', out⟩
    rw [hv] at hinv'' hrest hout
    rcases hr : vadRunFrom p st' fs with ⟨st'', rest⟩
    rw [hr] at hinv'' hrest
    simp only [vadRunFrom, hv, hr]
    refine ⟨hinv'', ?_⟩
    intro s hs
    rcases List.mem_append.mp hs with hl | hr2
    · exact hout s hl
    · exact hrest s hr2

/-- C8: for every sequence of AudioFrames fed to the segmenter, every
emitted AudioSegment — including one force-closed and flushed when
capture stops while it is open — has a frame count within the minimum
sustained (debounce) duration and the maximum segment duration; no
segment shorter than the debounce threshold is ever emitted. -/
theorem segment_duration_within_bounds (p : VadParams) (frames : List AudioFrame)
    (h1 : 1 ≤ p.debounceFrames) (h2 : p.debounceFrames ≤ p.maxFrames) :
    ∀ seg ∈ vadSession p frames,
      p.debounceFrames ≤ seg.frames.length ∧ seg.frames.length ≤ p.maxFrames := by
  intro seg hseg
  have hinit : VadInv p initVad := by
    refine ⟨by simpa [initVad] using h1, ?_⟩
    intro s l hsl
    simp [initVad] at hsl
  obtain ⟨hinv, hout⟩ := vadRunFrom_inv p frames initVad h1 h2 hinit
  unfold vadSession at hseg
  rcases hv : vadRunFrom p initVad frames with ⟨stf, out⟩
  rw [hv] at hseg hinv hout
  simp only at hseg
  cases hc : stf.current with
  | some pr =>
    obtain ⟨sg, sil⟩ := pr
    rw [hc] at hseg
    rcases List.mem_append.mp hseg with hl | hr
    · exact hout seg hl
    · simp only [List.mem_singleton] at hr
      subst hr
      obtain ⟨-, hcur⟩ := hinv
      obtain ⟨hlo, hhi⟩ := hcur sg sil hc
      refine ⟨hlo, ?_⟩
      show sg.length ≤ p.maxFrames
      omega
  | none =>
    rw [hc] at hseg
    exact hout seg hseg

/-- Witness for C8: with threshold 0, debounce 2 frames, silence window 2
and maximum 5, a run of seven active frames emits a hard-cutoff segment
of five frames, whose duration lies within the required bounds. -/
theorem segment_duration_within_bounds_witness :
    2 ≤ (AudioSegment.mk (List.replicate 5 ⟨3⟩)).frames.length ∧
      (AudioSegment.mk (List.replicate 5 ⟨3⟩)).frames.length ≤ 5 :=
  segment_duration_within_bounds ⟨0, 2, 2, 5⟩ (List.replicate 7 ⟨3⟩)
    (by decide) (by decide) ⟨List.replicate 5 ⟨3⟩⟩ (by decide)

/-! ## Theorems: ordered result delivery -/

/-- When no buffered entry's turn has come, draining changes nothing. -/
theorem drainReady_none {st : ReorderState}
    (h : st.buffer.find? (fun p => decide (p.1 = st.next)) = none) :
    drainReady st = st := by
  rw [drainReady]
  split
  · rfl
  · next p hfind =>
      rw [h] at hfind
      cases hfind

/-- When the entry keyed by `next` is buffered, draining delivers it and
continues. -/
theorem drainReady_some {st : ReorderState} {q : Nat × DeliveredResult}
    (h : st.buffer.find? (fun p => decide (p.1 = st.next)) = some q) :
    drainReady st =
      drainReady ⟨st.next + 1, st.buffer.eraseP (fun r => decide (r.1 = st.next)),
          st.delivered ++ [q]⟩ := by
  rw [drainReady]
  split
  · next hfind =>
      rw [h] at hfind
      cases hfind
  · next p hfind =>
      rw [h] at hfind
      injection hfind with hfind
      subst hfind
      rfl

/-- Draining from a well-formed reorder state keeps the delivered stream
equal to an initial range of sequence numbers, leaves only entries whose
turn has not yet come, moves entries without inventing any, and never
decreases `next`. -/
theorem drainReady_spec :
    ∀ (N : Nat) (st : ReorderState), st.buffer.length ≤ N →
    st.delivered.map Prod.fst = List.range st.next →
    (∀ q ∈ st.buffer, st.next ≤ q.1) →
    ((st.buffer.map Prod.fst).Nodup) →
    (drainReady st).delivered.map Prod.fst = List.range (drainReady st).next ∧
    (∀ q ∈ (drainReady st).buffer, (drainReady st).next < q.1) ∧
    (((drainReady st).buffer.map Prod.fst).Nodup) ∧
    (∀ q ∈ (drainReady st).delivered ++ (drainReady st).buffer,
      q ∈ st.delivered ++ st.buffer) ∧
    (∀ k : Nat, k < st.next ∨ k ∈ st.buffer.map Prod.fst →
      k < (drainReady st).next ∨ k ∈ (drainReady st).buffer.map Prod.fst) ∧
    st.next ≤ (drainReady st).next := by
  intro N
  induction N with
  | zero =>
    intro st hlen h1 h2 h3
    have hbuf : st.buffer = [] := List.length_eq_zero.mp (Nat.le_zero.mp hlen)
    have hnone : st.buffer.find? (fun p => decide (p.1 = st.next)) = none := by
      rw [hbuf]
      rfl
    rw [drainReady_none hnone]
    refine ⟨h1, ?_, h3, fun q hq => hq, fun k hk => hk, le_refl _⟩
    intro q hq
    rw [hbuf] at hq
    cases hq
  | succ N ih =>
    intro st hlen h1 h2 h3
    cases hfind : st.buffer.find? (fun p => decide (p.1 = st.next)) with
    | none =>
      rw [drainReady_none hfind]
      refine ⟨h1, ?_, h3, fun q hq => hq, fun k hk => hk, le_refl _⟩
      intro q hq
      have hle := h2 q hq
      have hne := List.find?_eq_none.mp hfind q hq
      simp only [decide_eq_true_eq] at hne
      omega
    | some q =>
      have hqmem := List.mem_of_find?_eq_some hfind
      have hqkey : q.1 = st.next := by simpa using List.find?_some hfind
      obtain ⟨w, l₁, l₂, hl₁, hw, hsplit, herase⟩ :=
        List.exists_of_eraseP hqmem (List.find?_some hfind)
      have hwkey : w.1 = st.next := by simpa using hw
      rw [drainReady_some hfind]
      have hlen₁ : (st.buffer.eraseP (fun r => decide (r.1 = st.next))).length ≤ N := by
        have hlen2 := List.length_eraseP_of_mem hqmem (List.find?_some hfind)
        have hpos : 0 < st.buffer.length := List.length_pos_of_mem hqmem
        omega
      have h1₁ : (st.delivered ++ [q]).map Prod.fst = List.range (st.next + 1) := by
        rw [List.map_append, h1, List.range_succ]
        simp [hqkey]
      have h2₁ : ∀ r ∈ st.buffer.eraseP (fun r => decide (r.1 = st.next)),
          st.next + 1 ≤ r.1 := by
        intro r hr
        rw [herase] at hr
        rcases List.mem_append.mp hr with hr1 | hr2
        · have hmem : r ∈ st.buffer := by
            rw [hsplit]
            exact List.mem_append_left _ hr1
          have hle := h2 r hmem
          have hne := hl₁ r hr1
          simp only [decide_eq_true_eq] at hne
          omega
        · have hmem : r ∈ st.buffer := by
            rw [hsplit]
            exact List.mem_append_right _ (List.mem_cons_of_mem _ hr2)
          have hle := h2 r hmem
          have hnodup : ((l₁ ++ w :: l₂).map Prod.fst).Nodup := by
            rw [← hsplit]
            exact h3
          rw [List.map_append] at hnodup
          have hcons := (List.nodup_append.mp hnodup).2.1
          rw [List.map_cons, List.nodup_cons] at hcons
          have hwnot := hcons.1
          have hrne : r.1 ≠ st.next := by
            intro hEq
            apply hwnot
            rw [hwkey, ← hEq]
            exact List.mem_map_of_mem Prod.fst hr2
          omega
      have h3₁ : ((st.buffer.eraseP (fun r => decide (r.1 = st.next))).map Prod.fst).Nodup :=
        List.Nodup.sublist ((List.eraseP_sublist _).map Prod.fst) h3
      obtain ⟨c1, c2, c3, c4, c5, c6⟩ :=
        ih ⟨st.next + 1, st.buffer.eraseP (fun r => decide (r.1 = st.next)),
            st.delivered ++ [q]⟩ hlen₁ h1₁ h2₁ h3₁
      refine ⟨c1, c2, c3, ?_, ?_, ?_⟩
      · intro r hr
        have hmem := c4 r hr
        rcases List.mem_append.mp hmem with hd | hb
        · rcases List.mem_append.mp hd with hd1 | hd2
          · exact List.mem_append_left _ hd1
          · rw [List.mem_singleton] at hd2
            subst hd2
            exact List.mem_append_right _ hqmem
        · exact List.mem_append_right _ ((List.eraseP_sublist _).subset hb)
      · intro k hk
        apply c5
        rcases hk with hk | hk
        · exact Or.inl (show k < st.next + 1 by omega)
        · by_cases hkn : k = st.next
          · exact Or.inl (show k < st.next + 1 by omega)
          · right
            show k ∈ (st.buffer.eraseP (fun r => decide (r.1 = st.next))).map Prod.fst
            rw [herase]
            obtain ⟨r, hrmem, hrk⟩ := List.mem_map.mp hk
            rw [hsplit] at hrmem
            rcases List.mem_append.mp hrmem with h5 | h6
            · exact List.mem_map.mpr ⟨r, List.mem_append_left _ h5, hrk⟩
            · rcases List.mem_cons.mp h6 with h7 | h8
              · subst h7
                rw [hrk] at hwkey
                exact absurd hwkey hkn
              · exact List.mem_map.mpr ⟨r, List.mem_append_right _ h8, hrk⟩
      · calc st.next ≤ st.next + 1 := by omega
          _ ≤ _ := c6

/-- Handling one completion, failure or timeout event preserves the
reorder-buffer invariant, now relative to the extended event history. -/
theorem handleOutcome_inv {evs : List (Nat × SegOutcome)} {st : ReorderState}
    (hinv : ReorderInv evs st) (ev : Nat × SegOutcome) :
    ReorderInv (evs ++ [ev]) (handleOutcome st ev) := by
  obtain ⟨h1, h2, h3, h4, h5⟩ := hinv
  unfold handleOutcome
  split
  next hcond =>
    simp only [Bool.or_eq_true, decide_eq_true_eq, List.any_eq_true] at hcond
    refine ⟨h1, h2, h3, ?_, ?_⟩
    · intro q hq
      obtain ⟨oc, hoc, hre⟩ := h4 q hq
      exact ⟨oc, List.mem_append_left _ hoc, hre⟩
    · intro e he
      rcases List.mem_append.mp he with he1 | he2
      · exact h5 e he1
      · rw [List.mem_singleton] at he2
        subst he2
        rcases hcond with hc | ⟨p, hp, hpk⟩
        · exact Or.inl hc
        · right
          have hpk2 : p.1 = e.1 := by simpa using hpk
          exact List.mem_map.mpr ⟨p, hp, hpk2⟩
  next hcond =>
    simp only [Bool.or_eq_true, decide_eq_true_eq, List.any_eq_true, not_or] at hcond
    obtain ⟨hnlt, hnbuf⟩ := hcond
    have hnkey : ev.1 ∉ st.buffer.map Prod.fst := by
      intro hk
      obtain ⟨p, hp, hpk⟩ := List.mem_map.mp hk
      exact hnbuf ⟨p, hp, by simpa using hpk⟩
    obtain ⟨c1, c2, c3, c4, c5, c6⟩ :=
      drainReady_spec (st.buffer.length + 1)
        ⟨st.next, (ev.1, resultOf ev.2) :: st.buffer, st.delivered⟩
        (by simp)
        h1
        (by
          intro r hr
          rcases List.mem_cons.mp hr with hr1 | hr2
          · subst hr1
            show st.next ≤ ev.1
            omega
          · have hlt := h2 r hr2
            show st.next ≤ r.1
            omega)
        (by
          show (((ev.1, resultOf ev.2) :: st.buffer).map Prod.fst).Nodup
          rw [List.map_cons, List.nodup_cons]
          exact ⟨hnkey, h3⟩)
    refine ⟨c1, c2, c3, ?_, ?_⟩
    · intro q hq
      have hmem := c4 q hq
      rcases List.mem_append.mp hmem with hd | hb
      · obtain ⟨oc, hoc, hre⟩ := h4 q (List.mem_append_left _ hd)
        exact ⟨oc, List.mem_append_left _ hoc, hre⟩
      · rcases List.mem_cons.mp hb with hb1 | hb2
        · subst hb1
          exact ⟨ev.2, List.mem_append_right _ (List.mem_singleton.mpr rfl), rfl⟩
        · obtain ⟨oc, hoc, hre⟩ := h4 q (List.mem_append_right _ hb2)
          exact ⟨oc, List.mem_append_left _ hoc, hre⟩
    · intro e he
      rcases List.mem_append.mp he with he1 | he2
      · rcases h5 e he1 with hc | hc
        · exact c5 e.1 (Or.inl hc)
        · apply c5
          right
          rw [List.map_cons]
          exact List.mem_cons_of_mem _ hc
      · rw [List.mem_singleton] at he2
        subst he2
        apply c5
        right
        rw [List.map_cons]
        exact List.mem_cons_self _ _

/-- Folding the reorder buffer over any batch of events extends the
invariant from the already-processed history to the full history. -/
theorem runReorder_inv_aux :
    ∀ (evs processed : List (Nat × SegOutcome)) (st : ReorderState),
    ReorderInv processed st →
    ReorderInv (processed ++ evs) (evs.foldl handleOutcome st) := by
  intro evs
  induction evs with
  | nil =>
    intro processed st h
    simpa using h
  | cons e es ih =>
    intro processed st h
    have h2 := ih (processed ++ [e]) (handleOutcome st e) (handleOutcome_inv h e)
    simpa [List.append_assoc] using h2

/-- C4: for every interleaving of segment completions, failures and
timeouts, the results delivered to the sink carry exactly the sequence
numbers `0, 1, 2, ...` in non-decreasing order; every delivered result
originates in an event for its slot, with a failed or timed-out
segment's slot filled by the empty marked result rather than skipped;
and once every sequence number below `n` has reported, all `n` slots
have been delivered. -/
theorem results_delivered_in_order (events : List (Nat × SegOutcome)) :
    (runReorder events).delivered.map Prod.fst = List.range (runReorder events).next ∧
    ((runReorder events).delivered.map Prod.fst).Pairwise (· ≤ ·) ∧
    (∀ q ∈ (runReorder events).delivered, ∃ oc, (q.1, oc) ∈ events ∧ q.2 = resultOf oc) ∧
    (∀ n : Nat, (∀ s, s < n → ∃ oc, (s, oc) ∈ events) → n ≤ (runReorder events).next) := by
  unfold runReorder
  have hinit : ReorderInv [] initReorder := by
    unfold ReorderInv initReorder
    refine ⟨by simp, by simp, by simp, by simp, by simp⟩
  have hinv := runReorder_inv_aux events [] initReorder hinit
  rw [List.nil_append] at hinv
  obtain ⟨h1, h2, h3, h4, h5⟩ := hinv
  refine ⟨h1, ?_, ?_, ?_⟩
  · rw [h1]
    exact (List.pairwise_lt_range _).imp le_of_lt
  · intro q hq
    exact h4 q (List.mem_append_left _ hq)
  · intro n hn
    by_contra hlt
    push_neg at hlt
    obtain ⟨oc, hoc⟩ := hn (List.foldl handleOutcome initReorder events).next hlt
    rcases h5 ((List.foldl handleOutcome initReorder events).next, oc) hoc with hc | hc
    · exact absurd hc (lt_irrefl _)
    · obtain ⟨r, hr, hrk⟩ := List.mem_map.mp hc
      have hgt := h2 r hr
      omega

/-- Witness for C4: with segment 1 completing before segment 0 fails, the
delivered stream is still the ordered range of sequence numbers and both
slots are delivered. -/
theorem results_delivered_in_order_witness :
    ((runReorder [(1, SegOutcome.completed "b"), (0, SegOutcome.failedSeg)]).delivered.map
        Prod.fst =
      List.range (runReorder [(1, SegOutcome.completed "b"), (0, SegOutcome.failedSeg)]).next) ∧
    2 ≤ (runReorder [(1, SegOutcome.completed "b"), (0, SegOutcome.failedSeg)]).next :=
  ⟨(results_delivered_in_order _).1,
   (results_delivered_in_order _).2.2.2 2 (by
      intro s hs
      interval_cases s
      · exact ⟨SegOutcome.failedSeg, by decide⟩
      · exact ⟨SegOutcome.completed "b", by decide⟩)⟩

end VoiceFlow
